import Mathlib

/-!
Verification of `occ_memo_daily_slack.py` against its design specification.

The Python source is shallowly embedded: pure parsing and classification
functions become Lean functions over `List Char` / `String`, the stateful
`main` pipeline becomes an explicit function from its inputs (parsed listing,
selection mode, configuration, a fetch oracle for the per-candidate document
retrieval) to a record of its externally visible effects.  External library
calls (the `dateutil` fuzzy date parser, `datetime.date.fromisoformat`) are
modelled from the specification of the Date Normalizer, since their code is
not part of this repository.
-/

/-! ## Character and string primitives (ASCII models of the Python builtins) -/

/-- ASCII decimal digit test, models the regex class `\d` (ASCII). -/
def isDigitCh (c : Char) : Bool := '0' ≤ c && c ≤ '9'

/-- ASCII letter test, models the regex class `[A-Za-z]`. -/
def isAlphaCh (c : Char) : Bool := ('a' ≤ c && c ≤ 'z') || ('A' ≤ c && c ≤ 'Z')

/-- ASCII whitespace test, models the regex class `\s` on ASCII input. -/
def isSpaceCh (c : Char) : Bool :=
  c = ' ' || c = '\t' || c = '\n' || c = '\r' || c = '\x0b' || c = '\x0c'

/-- Regex word-character test `\w` (ASCII), used for `\b` boundaries. -/
def isWordCh (c : Char) : Bool := isAlphaCh c || isDigitCh c || c = '_'

/-- ASCII lower-casing of one character; models Python `str.lower` on the
ASCII range (all inputs relevant to the claims are ASCII plus an em dash,
which `lower` leaves unchanged). -/
def pyLower (c : Char) : Char :=
  if 'A' ≤ c && c ≤ 'Z' then Char.ofNat (c.toNat + 32) else c

/-- Lower-case a whole string (model of Python `str.lower()`). -/
def lowerStr (s : String) : String := String.mk (s.data.map pyLower)

/-- Substring containment on character lists: `needle` occurs somewhere in
`hay`.  Models the Python expression `needle in hay` on strings. -/
def containsSub (needle : List Char) : List Char → Bool
  | [] => needle.isEmpty
  | c :: rest => needle.isPrefixOf (c :: rest) || containsSub needle rest

/-- Model of the Python membership test `needle in hay` for strings. -/
def strContains (hay needle : String) : Bool := containsSub needle.data hay.data

/-- Strip ASCII whitespace from both ends of a character list; models
Python `str.strip()` on ASCII input. -/
def trimCh (cs : List Char) : List Char :=
  ((cs.dropWhile isSpaceCh).reverse.dropWhile isSpaceCh).reverse

/-- Model of Python `str.strip()`. -/
def pyStrip (s : String) : String := String.mk (trimCh s.data)

/-- Split a character list at the first position, returning the maximal
leading run satisfying `p` and the remainder. -/
def takeRun (p : Char → Bool) (cs : List Char) : List Char × List Char :=
  (cs.takeWhile p, cs.dropWhile p)

/-- Case-insensitive literal match at the head of `cs`; `pat` is given in
lower case.  Models matching a literal in a `re.I` pattern. -/
def ciLeads : List Char → List Char → Bool
  | [], _ => true
  | _ :: _, [] => false
  | p :: ps, c :: cs => p = pyLower c && ciLeads ps cs

/-- Numeric value of a list of ASCII digit characters. -/
def natOfDigits (ds : List Char) : Nat :=
  ds.foldl (fun a c => 10 * a + (c.toNat - 48)) 0

/-- Python `int(...)` on a stripped decimal string: optional sign followed by
at least one digit; anything else fails. -/
def parseIntCh (cs : List Char) : Option Int :=
  match cs with
  | '-' :: rest => if rest ≠ [] && rest.all isDigitCh then some (-(natOfDigits rest : Int)) else none
  | '+' :: rest => if rest ≠ [] && rest.all isDigitCh then some (natOfDigits rest : Int) else none
  | rest => if rest ≠ [] && rest.all isDigitCh then some (natOfDigits rest : Int) else none

/-- Split a character list into lines at `\n` (the pieces keep no newline);
models the line structure used by `re.M` anchors `^` and `$`. -/
def splitLinesAux (cur : List Char) : List Char → List (List Char)
  | [] => [cur.reverse]
  | '\n' :: rest => cur.reverse :: splitLinesAux [] rest
  | c :: rest => splitLinesAux (c :: cur) rest

/-- Lines of a string. -/
def splitLines (cs : List Char) : List (List Char) := splitLinesAux [] cs

/-- First `some` produced by `f` over a list, in order. -/
def firstSome {α β : Type} (f : α → Option β) : List α → Option β
  | [] => none
  | a :: rest => match f a with
    | some b => some b
    | none => firstSome f rest

/-- Try a matcher at every suffix of the text, leftmost position first;
models `re.search` for an unanchored pattern. -/
def scanFirst {β : Type} (f : List Char → Option β) : List Char → Option β
  | [] => f []
  | c :: rest => match f (c :: rest) with
    | some b => some b
    | none => scanFirst f rest

/-- Model of `" ".join(lst)`. -/
def joinSpace : List String → String
  | [] => ""
  | [s] => s
  | s :: rest => s ++ " " ++ joinSpace rest

/-- Whitespace-run splitting with empty pieces dropped; models the
zero-argument Python `str.split()`. -/
def splitWsAux (cur : List Char) : List Char → List String
  | [] => if cur.isEmpty then [] else [String.mk cur.reverse]
  | c :: rest =>
    if isSpaceCh c then
      if cur.isEmpty then splitWsAux [] rest
      else String.mk cur.reverse :: splitWsAux [] rest
    else splitWsAux (c :: cur) rest

/-- Model of Python `s.split()` (no separator argument). -/
def pySplitWs (s : String) : List String := splitWsAux [] s.data

/-! ## Calendar dates -/

/-- A Python `datetime.date` value. -/
structure PyDate where
  y : Nat
  m : Nat
  d : Nat
deriving DecidableEq

/-- Lexicographic comparison of dates; models `<=` on `datetime.date`. -/
def dateLe (a b : PyDate) : Bool :=
  a.y < b.y || (a.y = b.y && (a.m < b.m || (a.m = b.m && a.d ≤ b.d)))

/-- Gregorian leap-year rule. -/
def isLeap (y : Nat) : Bool := y % 4 = 0 && (y % 100 ≠ 0 || y % 400 = 0)

/-- Number of days in a month. -/
def daysInMonth (y m : Nat) : Nat :=
  if m = 2 then (if isLeap y then 29 else 28)
  else if m = 4 || m = 6 || m = 9 || m = 11 then 30
  else 31

/-- Validity of a calendar date. -/
def validDate (y m d : Nat) : Bool :=
  1 ≤ m && m ≤ 12 && 1 ≤ d && d ≤ daysInMonth y m

/-- Two-digit zero-padded decimal rendering (for month and day fields). -/
def pad2 (n : Nat) : List Char :=
  [Char.ofNat (48 + (n / 10) % 10), Char.ofNat (48 + n % 10)]

/-- Four-digit zero-padded decimal rendering (for the year field). -/
def pad4 (n : Nat) : List Char :=
  [Char.ofNat (48 + (n / 1000) % 10), Char.ofNat (48 + (n / 100) % 10),
   Char.ofNat (48 + (n / 10) % 10), Char.ofNat (48 + n % 10)]

/-- Canonical `YYYY-MM-DD` rendering, models `d.strftime("%Y-%m-%d")`. -/
def isoString (y m d : Nat) : String :=
  String.mk (pad4 y ++ '-' :: pad2 m ++ '-' :: pad2 d)

/-- Month-name table recognized by the normalizer (full names and the usual
three-letter abbreviations, lower case). -/
def monthNames : List (String × Nat) :=
  [("january", 1), ("february", 2), ("march", 3), ("april", 4), ("may", 5),
   ("june", 6), ("july", 7), ("august", 8), ("september", 9), ("october", 10),
   ("november", 11), ("december", 12),
   ("jan", 1), ("feb", 2), ("mar", 3), ("apr", 4), ("jun", 6), ("jul", 7),
   ("aug", 8), ("sep", 9), ("sept", 9), ("oct", 10), ("nov", 11), ("dec", 12)]

/-- Look up a lower-cased month token. -/
def monthNum (cs : List Char) : Option Nat :=
  (monthNames.find? (fun p => p.1.data = cs)).map (·.2)

/-- Modelled from the spec: the Date Normalizer `_to_iso` wraps the external
`dateutil` fuzzy parser, whose code is not part of this repository.  Per the
specification it accepts a free-form date string such as "March 3, 2024" or
"03/03/2024", tolerates surrounding whitespace and punctuation, resolves
numeric day/month month-first, and produces the canonical `YYYY-MM-DD` form,
or yields absence when the input is not a valid calendar date. -/
def to_iso (s : String) : Option String :=
  let cs := s.data.dropWhile isSpaceCh
  let (ls, r1) := takeRun isAlphaCh cs
  if ls.isEmpty then
    -- numeric slash form, month first: M/D/YYYY
    let (d1, s1) := takeRun isDigitCh cs
    if d1.isEmpty || 2 < d1.length then none
    else match s1 with
      | '/' :: s2 =>
        let (d2, s3) := takeRun isDigitCh s2
        if d2.isEmpty || 2 < d2.length then none
        else match s3 with
          | '/' :: s4 =>
            let (ys, _) := takeRun isDigitCh s4
            if ys.length = 4 then
              let y := natOfDigits ys
              let m := natOfDigits d1
              let d := natOfDigits d2
              if validDate y m d then some (isoString y m d) else none
            else none
          | _ => none
      | _ => none
  else
    -- month-name form: Month D, YYYY
    match monthNum (ls.map pyLower) with
    | none => none
    | some m =>
      let r2 := r1.dropWhile isSpaceCh
      let (ds, r3) := takeRun isDigitCh r2
      if ds.isEmpty then none
      else
        let day := natOfDigits ds
        let r4 := match r3 with
          | ',' :: t => t
          | t => t
        let r5 := r4.dropWhile isSpaceCh
        let (ys, _) := takeRun isDigitCh r5
        if ys.length = 4 then
          let y := natOfDigits ys
          if validDate y m day then some (isoString y m day) else none
        else none

/-- Modelled from the spec: `datetime.date.fromisoformat` (Python standard
library, outside this repository) wrapped in the try/except of `iso_to_date`
at lines 292-296 of the source: parses exactly `YYYY-MM-DD` with zero-padded
fields into a valid calendar date, anything else yields absence. -/
def iso_to_date (s : String) : Option PyDate :=
  match s.data with
  | [y1, y2, y3, y4, '-', m1, m2, '-', d1, d2] =>
    if [y1, y2, y3, y4, m1, m2, d1, d2].all isDigitCh then
      let y := natOfDigits [y1, y2, y3, y4]
      let m := natOfDigits [m1, m2]
      let d := natOfDigits [d1, d2]
      if validDate y m d then some ⟨y, m, d⟩ else none
    else none
  | _ => none

/-! ## Data model -/

/-- The `MemoRow` dataclass of the source (lines 59-70). -/
structure MemoRow where
  memo_number : Nat
  title : String
  url : String
  post_date : Option String := none
  effective_date : Option String := none
  event_type : Option String := none
  option_symbols : Option String := none
  new_symbols : Option String := none
  subject : Option String := none
  details : Option String := none
deriving DecidableEq

/-! ## Event classifier (source lines 33-40 and 127-137) -/

/-- The `EVENT_KEYWORDS` taxonomy in its declaration order (source lines
33-40); Python dictionaries preserve insertion order. -/
def EVENT_KEYWORDS : List (String × List String) :=
  [("reverse split", ["reverse split"]),
   ("split", ["stock split", "split "]),
   ("name/symbol change", ["name/symbol change", "symbol change", "name change"]),
   ("merger", ["merger", "combination", "acquisition"]),
   ("tender", ["tender offer"]),
   ("liquidation", ["liquidation"])]

/-- First taxonomy label one of whose keywords is contained in `text`;
models the nested loop of `classify_event`. -/
def firstKeyLabel : List (String × List String) → String → Option String
  | [], _ => none
  | (label, keys) :: rest, text =>
    if keys.any (fun k => strContains text k) then some label
    else firstKeyLabel rest text

/-- Match of the regex `\b\d+\s*for\s*\d+\b` at the very start of `cs`,
where `prev` is the character just before `cs` (for the leading `\b`). -/
def ratioAt (prev : Option Char) (cs : List Char) : Bool :=
  (match prev with
   | none => true
   | some c => !isWordCh c) &&
  (let (d1, r1) := takeRun isDigitCh cs
   !d1.isEmpty &&
   (let r2 := r1.dropWhile isSpaceCh
    if ['f', 'o', 'r'].isPrefixOf r2 then
      let r3 := (r2.drop 3).dropWhile isSpaceCh
      let (d2, r4) := takeRun isDigitCh r3
      !d2.isEmpty &&
      (match r4 with
       | [] => true
       | c :: _ => !isWordCh c)
    else false))

/-- Scan for the ratio pattern anywhere; models
`re.search(r"\b\d+\s*for\s*\d+\b", text)` returning whether a match exists. -/
def ratioSearchAux (prev : Option Char) : List Char → Bool
  | [] => false
  | c :: rest => ratioAt prev (c :: rest) || ratioSearchAux (some c) rest

/-- Existence of an `N for M` ratio pattern in the text. -/
def ratioSearch (s : String) : Bool := ratioSearchAux none s.data

/-- The `classify_event` function (source lines 127-137). -/
def classify_event (title : String) (subject : Option String) : Option String :=
  let text := lowerStr (title ++ " " ++ subject.getD "")
  match firstKeyLabel EVENT_KEYWORDS text with
  | some label => some label
  | none =>
    if strContains text "reverse" && strContains text "split" then some "reverse split"
    else if strContains text "stock split" || ratioSearch text then some "split"
    else none

/-- Keywords of the taxonomy entries that precede the "tender" entry. -/
def tenderEarlierKeys : List String :=
  ((EVENT_KEYWORDS.take 4).map (·.2)).flatten

/-- All keywords of the whole taxonomy. -/
def allTaxonomyKeys : List String := (EVENT_KEYWORDS.map (·.2)).flatten

/-! ## Field extractor: the regex patterns of lines 43-50 as deterministic
scanners.  `re.search` finds the leftmost matching position; the scanners try
every position left to right.  `\s` may cross newlines even in `re.M`
patterns, which the scanners reproduce. -/

/-- Try a matcher at every position that begins a line (re.M `^`):
position 0 and every position following a newline, leftmost first. -/
def scanAfterNewlines {β : Type} (f : List Char → Option β) : List Char → Option β
  | [] => none
  | c :: rest =>
    if c = '\n' then
      match f rest with
      | some b => some b
      | none => scanAfterNewlines f rest
    else scanAfterNewlines f rest

/-- Leftmost line-start match. -/
def scanLineStarts {β : Type} (f : List Char → Option β) (cs : List Char) : Option β :=
  match f cs with
  | some b => some b
  | none => scanAfterNewlines f cs

/-- The `\s*(.+)$` tail of the line-anchored field patterns: greedy
whitespace (which may cross newlines), then a nonempty capture of
non-newline characters ending at a line end.  When everything after the
label is whitespace, backtracking leaves exactly the last non-newline
whitespace character as the capture. -/
def dotPlusEndCapture (rest : List Char) : Option (List Char) :=
  let r := rest.dropWhile isSpaceCh
  if !r.isEmpty then some (r.takeWhile (fun c => c ≠ '\n'))
  else
    match (rest.takeWhile isSpaceCh).reverse.dropWhile (fun c => c = '\n') with
    | [] => none
    | c :: _ => some [c]

/-- Match `base[s]?:` case-insensitively at the head of `cs` and return the
remainder; the optional `s` is tried first, as the regex engine does. -/
def optSLabel (base : List Char) (cs : List Char) : Option (List Char) :=
  if ciLeads (base ++ ['s', ':']) cs then some (cs.drop (base.length + 2))
  else if ciLeads (base ++ [':']) cs then some (cs.drop (base.length + 1))
  else none

/-- One-position matcher for `^LABEL[s]?:\s*(.+)$` style patterns. -/
def labelFieldCapAt (base : List Char) (optS : Bool) (cs : List Char) : Option (List Char) :=
  match (if optS then optSLabel base cs
         else if ciLeads (base ++ [':']) cs then some (cs.drop (base.length + 1)) else none) with
  | some rest => dotPlusEndCapture rest
  | none => none

/-- Capture of `RE_SUBJECT = ^Subject:\s*(.+)$` (re.M, re.I). -/
def subjectCapture (text : String) : Option String :=
  (scanLineStarts (labelFieldCapAt "subject".data false) text.data).map String.mk

/-- Capture of `RE_OPT_SYM = ^Option Symbol[s]?:\s*(.+)$` (re.M, re.I). -/
def optSymCapture (text : String) : Option String :=
  (scanLineStarts (labelFieldCapAt "option symbol".data true) text.data).map String.mk

/-- Capture of `RE_NEW_SYM = ^New Symbol[s]?:\s*(.+)$` (re.M, re.I). -/
def newSymCapture (text : String) : Option String :=
  (scanLineStarts (labelFieldCapAt "new symbol".data true) text.data).map String.mk

/-- Character class `[A-Za-z0-9/]` of the inline symbol patterns. -/
def symTokenCh (c : Char) : Bool := isAlphaCh c || isDigitCh c || c = '/'

/-- One-position matcher for the unanchored `LABELs?:\s*([A-Za-z0-9/]+)`
patterns. -/
def inlineSymCapAt (base : List Char) (cs : List Char) : Option (List Char) :=
  match optSLabel base cs with
  | some rest =>
    let r := rest.dropWhile isSpaceCh
    let (tok, _) := takeRun symTokenCh r
    if tok.isEmpty then none else some tok
  | none => none

/-- Capture of `RE_TITLED_NEW_SYM = New Symbols?:\s*([A-Za-z0-9/]+)` (re.I). -/
def titledNewSymCapture (text : String) : Option String :=
  (scanFirst (inlineSymCapAt "new symbol".data) text.data).map String.mk

/-- Capture of `RE_ADJUSTED_SYM = Adjusted Option Symbol[s]?:\s*([A-Za-z0-9/]+)`
(re.I). -/
def adjustedSymCapture (text : String) : Option String :=
  (scanFirst (inlineSymCapAt "adjusted option symbol".data) text.data).map String.mk

/-- The month-name date capture group `([A-Za-z]{3,9}\s+\d{1,2},\s*\d{4})`
shared by `RE_EFFECTIVE_DATE_LINE` and `RE_MARKET_OPEN_LINE`: a run of 3 to 9
letters, at least one whitespace, one or two digits, a comma, optional
whitespace, four digits. -/
def dateCaptureCore (cs : List Char) : Option (List Char) :=
  let (ls, r1) := takeRun isAlphaCh cs
  if 3 ≤ ls.length && ls.length ≤ 9 then
    let (w1, r2) := takeRun isSpaceCh r1
    if w1.isEmpty then none
    else
      let (ds, r3) := takeRun isDigitCh r2
      if 1 ≤ ds.length && ds.length ≤ 2 then
        match r3 with
        | ',' :: r4 =>
          let (w2, r5) := takeRun isSpaceCh r4
          let (ys, _) := takeRun isDigitCh r5
          if 4 ≤ ys.length then some (ls ++ w1 ++ ds ++ ',' :: (w2 ++ ys.take 4))
          else none
        | _ => none
      else none
  else none

/-- One-position matcher for `RE_EFFECTIVE_DATE_LINE =
Effective Date:\s*([A-Za-z]{3,9}\s+\d{1,2},\s*\d{4})` (re.I). -/
def effDateLineCapAt (cs : List Char) : Option (List Char) :=
  if ciLeads "effective date:".data cs then
    dateCaptureCore ((cs.drop 15).dropWhile isSpaceCh)
  else none

/-- Capture of `RE_EFFECTIVE_DATE_LINE`, leftmost match. -/
def effDateLineCapture (text : String) : Option String :=
  (scanFirst effDateLineCapAt text.data).map String.mk

/-- The `(\d{1,2}/\d{1,2}/\d{4})` group of `RE_DATE_FIELD`; returns the
capture and the remainder of the text. -/
def slashDateCap (cs : List Char) : Option (List Char × List Char) :=
  let (d1, r1) := takeRun isDigitCh cs
  if 1 ≤ d1.length && d1.length ≤ 2 then
    match r1 with
    | '/' :: r2 =>
      let (d2, r3) := takeRun isDigitCh r2
      if 1 ≤ d2.length && d2.length ≤ 2 then
        match r3 with
        | '/' :: r4 =>
          let (ys, r5) := takeRun isDigitCh r4
          if ys.length = 4 then some (d1 ++ '/' :: d2 ++ '/' :: ys, r5) else none
        | _ => none
      else none
    | _ => none
  else none

/-- The trailing `\s*$` of `RE_DATE_FIELD` in multiline mode: some whitespace
run after which a newline or the end of text follows. -/
def dateFieldTrailOk (tail : List Char) : Bool :=
  tail.dropWhile isSpaceCh = [] || (tail.takeWhile isSpaceCh).contains '\n'

/-- One-position (line-start) matcher for `RE_DATE_FIELD =
^Date:\s*(\d{1,2}/\d{1,2}/\d{4})\s*$` (re.M, case-sensitive). -/
def dateFieldCapAt (cs : List Char) : Option (List Char) :=
  if "Date:".data.isPrefixOf cs then
    match slashDateCap ((cs.drop 5).dropWhile isSpaceCh) with
    | some (cap, rest) => if dateFieldTrailOk rest then some cap else none
    | none => none
  else none

/-- Capture of `RE_DATE_FIELD`, leftmost matching line. -/
def dateFieldCapture (text : String) : Option String :=
  (scanLineStarts dateFieldCapAt text.data).map String.mk

/-- One-position matcher for `RE_MARKET_OPEN_LINE = effective (?:at|before)
the (?:open|opening) (?:of (?:the )?business )?(?:on )?(DATE)` (re.I). -/
def marketOpenCapAt (cs : List Char) : Option (List Char) :=
  if ciLeads "effective ".data cs then
    let r0 := cs.drop 10
    match (if ciLeads "at the ".data r0 then some (r0.drop 7)
           else if ciLeads "before the ".data r0 then some (r0.drop 11)
           else none) with
    | none => none
    | some r1 =>
      match (if ciLeads "opening ".data r1 then some (r1.drop 8)
             else if ciLeads "open ".data r1 then some (r1.drop 5)
             else none) with
      | none => none
      | some r2 =>
        let r3 :=
          if ciLeads "of the business ".data r2 then r2.drop 16
          else if ciLeads "of business ".data r2 then r2.drop 12
          else r2
        let r4 := if ciLeads "on ".data r3 then r3.drop 3 else r3
        dateCaptureCore r4
  else none

/-- Capture of `RE_MARKET_OPEN_LINE`, leftmost match. -/
def marketOpenCapture (text : String) : Option String :=
  (scanFirst marketOpenCapAt text.data).map String.mk

/-- Result record of `parse_pdf_fields`. -/
structure PdfFields where
  subject : Option String
  option_symbols : Option String
  new_symbols : Option String
  effective_date : Option String
deriving DecidableEq

/-- The `parse_pdf_fields` function (source lines 139-167): per-field ordered
cascades, first matching pattern wins; each effective-date capture is passed
through the Date Normalizer. -/
def parse_pdf_fields (text : String) : PdfFields :=
  let subject := (subjectCapture text).map pyStrip
  let opt_syms := (optSymCapture text).map pyStrip
  let new_syms :=
    match newSymCapture text with
    | some c => some (pyStrip c)
    | none =>
      match titledNewSymCapture text with
      | some c => some (pyStrip c)
      | none => (adjustedSymCapture text).map pyStrip
  let eff :=
    match effDateLineCapture text with
    | some c => to_iso c
    | none =>
      match dateFieldCapture text with
      | some c => to_iso c
      | none =>
        match marketOpenCapture text with
        | some c => to_iso c
        | none => none
  ⟨subject, opt_syms, new_syms, eff⟩

/-! ## Listing parser (source lines 77-116) -/

/-- Anchored match of `re.match(r"\d{2}/\d{2}/\d{4}", t)`: the fragment must
begin, at its first character, with two digits, a slash, two digits, a slash
and four digits; anything may follow. -/
def startsWithDatePattern (t : String) : Bool :=
  match t.data with
  | a :: b :: '/' :: c :: d :: '/' :: e :: f :: g :: h :: _ =>
    [a, b, c, d, e, f, g, h].all isDigitCh
  | _ => false

/-- The date-hint computation of the backward sibling lookback (source lines
101-107): drop empty fragments, restore reading order, keep the fragments
that begin with a date-shaped token; the first is normalized into the post
date, the second into the effective-date hint. -/
def listingDateHints (texts_back : List String) : Option String × Option String :=
  let candidates := (texts_back.filter (fun t => t ≠ "")).reverse
  let dates := candidates.filter startsWithDatePattern
  match dates with
  | [] => (none, none)
  | [d0] => (to_iso d0, none)
  | d0 :: d1 :: _ => (to_iso d0, to_iso d1)

/-- The dict-based dedup of source lines 112-115: keep the first row seen for
each memo number, in first-occurrence order. -/
def dedupAux (seen : List Nat) : List MemoRow → List MemoRow
  | [] => []
  | r :: rest =>
    if r.memo_number ∈ seen then dedupAux seen rest
    else r :: dedupAux (r.memo_number :: seen) rest

/-- Dedup of a full scan result. -/
def dedupRows (rows : List MemoRow) : List MemoRow := dedupAux [] rows

/-- Stable insertion into a descending-by-number list; a new element goes
before the first strictly smaller key and after equal keys, reproducing the
stability of Python `sorted(..., reverse=True)`. -/
def insertDesc (x : MemoRow) : List MemoRow → List MemoRow
  | [] => [x]
  | y :: ys => if y.memo_number ≤ x.memo_number then x :: y :: ys else y :: insertDesc x ys

/-- Stable sort by memo number, descending; models
`sorted(..., key=lambda x: x.memo_number, reverse=True)` and the
`df.sort_values(by=["memo_number"], ascending=False)` step. -/
def sortDesc : List MemoRow → List MemoRow
  | [] => []
  | x :: xs => insertDesc x (sortDesc xs)

/-- The dedup-and-order tail of `parse_search_listing` (source lines
112-116), applied to the rows produced by the anchor scan. -/
def parse_search_listing_rows (rows : List MemoRow) : List MemoRow :=
  sortDesc (dedupRows rows)

/-! ## Watermark, selection, enrichment and filtering (`main`, lines 210-343) -/

/-- Candidate selection configuration: watermark mode reads the state-file
content, lookback mode compares post dates against a cutoff computed as
today minus the configured day count. -/
inductive SelectionMode where
  | watermark (stateContent : Option String)
  | lookback (cutoff : PyDate)

/-- Watermark read of lines 243-249: the state-file content, stripped and
parsed as a decimal integer; an absent or unparseable file reads as 0. -/
def readWatermark (content : Option String) : Int :=
  match content with
  | none => 0
  | some s => (parseIntCh (trimCh s.data)).getD 0

/-- The selection loops of lines 232-252. -/
def pickRows (listing : List MemoRow) : SelectionMode → List MemoRow
  | .watermark content =>
    listing.filter (fun r => readWatermark content < (r.memo_number : Int))
  | .lookback cutoff =>
    listing.filter (fun r =>
      match r.post_date with
      | none => false
      | some s =>
        match iso_to_date s with
        | none => false
        | some d => dateLe cutoff d)

/-- Python `a or b` for optional strings: the left value unless it is absent
or empty. -/
def pyOrStr (a b : Option String) : Option String :=
  match a with
  | some s => if s = "" then b else some s
  | none => b

/-- The computation `" ".join(args.include).lower()` of line 259. -/
def include_textOf (inc : List String) : String := lowerStr (joinSpace inc)

/-- One iteration of the enrichment loop of lines 260-277, with the document
fetch of line 262 as an oracle (it is an external network call): on success
the row is enriched, classified and subjected to the include-keyword filter;
on failure the row is emitted with an error note, bypassing that filter. -/
def enrichStep (fetch : MemoRow → Except String String) (include_text : String)
    (r : MemoRow) : Option MemoRow :=
  match fetch r with
  | .error e => some { r with details := some ("parse_error: " ++ e) }
  | .ok text =>
    let fields := parse_pdf_fields text
    let r1 : MemoRow :=
      { r with subject := fields.subject,
               option_symbols := pyOrStr fields.option_symbols r.option_symbols,
               new_symbols := pyOrStr fields.new_symbols r.new_symbols,
               effective_date := pyOrStr fields.effective_date r.effective_date }
    let r2 : MemoRow := { r1 with event_type := classify_event r1.title r1.subject }
    if include_text ≠ "" then
      let hay := lowerStr (r2.title ++ " " ++ r2.subject.getD "")
      if (pySplitWs include_text).any (fun kw => strContains hay kw) then some r2 else none
    else some r2

/-- The full enrichment loop over the selected candidates. -/
def enrichLoop (fetch : MemoRow → Except String String) (include_text : String)
    (picked : List MemoRow) : List MemoRow :=
  picked.filterMap (enrichStep fetch include_text)

/-- Row-keeping predicate of the past-effective exclusion (lines 292-298):
kept when the effective date is absent or unparseable, or not strictly
before today. -/
def keepByEffDate (today : PyDate) (r : MemoRow) : Bool :=
  match r.effective_date with
  | none => true
  | some s =>
    match iso_to_date s with
    | none => true
    | some d => dateLe today d

/-- Modelled from the spec: the guard of line 291 is written
`args.exclude-past-effective`, which is not a read of the configured flag
(see `line291Failure` below); the design states the intended guard is the
exclude-past-effective toggle, dropping rows whose effective date is present
and strictly before today. -/
def excludePastFilter (toggle : Bool) (today : PyDate) (rows : List MemoRow) : List MemoRow :=
  if toggle then rows.filter (keepByEffDate today) else rows

/-- Maximum memo number of a listing (0 when empty), line 331. -/
def maxNum : List MemoRow → Nat
  | [] => 0
  | r :: rest => max r.memo_number (maxNum rest)

/-- Externally visible effects of one run of `main` past the listing fetch. -/
structure RunOutput where
  wrote_xlsx : Bool
  wrote_csv : Bool
  wrote_latest : Bool
  state_write : Option Nat
  notified : Bool
  results : List MemoRow
deriving DecidableEq

/-- The `main` pipeline from the parsed listing onward (lines 229-343):
selection, the empty-selection early return of lines 254-256, enrichment and
include filtering, the past-effective filter, the descending sort, the
output writes, the watermark rewrite of lines 331-336 and the notification.
The guard of line 291 is taken with its intended semantics
(`excludePastFilter`); its actual evaluation failure is modelled separately
by `line291Failure`. -/
def runMain (listing : List MemoRow) (mode : SelectionMode) (inc : List String)
    (excludePastFlag : Bool) (today : PyDate)
    (fetch : MemoRow → Except String String) (slackConfigured : Bool) : RunOutput :=
  let picked := pickRows listing mode
  if picked.isEmpty then
    { wrote_xlsx := false, wrote_csv := false, wrote_latest := false,
      state_write := none, notified := false, results := [] }
  else
    let include_text := include_textOf inc
    let results := enrichLoop fetch include_text picked
    let df := excludePastFilter excludePastFlag today results
    let df := sortDesc df
    { wrote_xlsx := true, wrote_csv := true, wrote_latest := true,
      state_write := some (maxNum listing), notified := slackConfigured, results := df }

/-- Attribute names of the argparse namespace built at lines 212-221 (each
`--option-name` becomes attribute `option_name`). -/
def argparseAttrs : List String :=
  ["out", "state", "since_posted_days", "include", "exclude_past_effective",
   "slack_webhook", "slack_token", "slack_channel", "slack_upload_files"]

/-- Local names bound in `main` before line 291 is reached. -/
def mainLocalNames : List String :=
  ["p", "args", "session", "html", "listing", "today", "picked", "cutoff",
   "r", "pd_", "last_n", "f", "results", "include_text", "text", "fields",
   "hay", "e", "df"]

/-- Name resolution demanded by the expression `args.exclude-past-effective`
of line 291, which Python reads as `(args.exclude) - past - effective`: the
attribute `exclude` on the namespace, then the names `past` and `effective`
in scope, in evaluation order. -/
def line291RequiredNames : List (String × List String) :=
  [("exclude", argparseAttrs), ("past", mainLocalNames), ("effective", mainLocalNames)]

/-- First name required by line 291 that does not resolve (evaluating the
line raises there). -/
def line291Failure : Option String :=
  (line291RequiredNames.find? (fun p => !p.2.contains p.1)).map (·.1)

/-- The default include-keyword set of line 215. -/
def defaultIncludeArgs : List String := ["reverse", "split", "name", "symbol", "merger"]

/-- Sample candidate row builder used in concrete instances. -/
def sampleRow (n : Nat) (t : String) : MemoRow :=
  ⟨n, t, "u", none, none, none, none, none, none, none⟩

/-- Sample candidate carrying a past effective-date hint from the listing. -/
def hintRow : MemoRow :=
  ⟨9, "t", "u", none, some "2020-01-01", none, none, none, none, none⟩

/-! ## Helper lemmas -/

theorem mem_insertDesc {a x : MemoRow} {l : List MemoRow} :
    a ∈ insertDesc x l ↔ a = x ∨ a ∈ l := by
  induction l with
  | nil => simp [insertDesc]
  | cons y ys ih =>
    simp only [insertDesc]
    split
    · simp
    · simp [ih]
      tauto

theorem insertDesc_perm (x : MemoRow) (l : List MemoRow) :
    List.Perm (insertDesc x l) (x :: l) := by
  induction l with
  | nil => simp [insertDesc]
  | cons y ys ih =>
    simp only [insertDesc]
    split
    · exact List.Perm.refl _
    · exact List.Perm.trans (List.Perm.cons y ih) (List.Perm.swap x y ys)

theorem sortDesc_perm (l : List MemoRow) : List.Perm (sortDesc l) l := by
  induction l with
  | nil => exact List.Perm.refl _
  | cons x xs ih =>
    exact List.Perm.trans (insertDesc_perm x (sortDesc xs)) (List.Perm.cons x ih)

theorem mem_sortDesc {a : MemoRow} {l : List MemoRow} : a ∈ sortDesc l ↔ a ∈ l :=
  (sortDesc_perm l).mem_iff

theorem pairwise_insertDesc {x : MemoRow} {l : List MemoRow}
    (h : List.Pairwise (fun a b => b.memo_number ≤ a.memo_number) l) :
    List.Pairwise (fun a b => b.memo_number ≤ a.memo_number) (insertDesc x l) := by
  induction l with
  | nil => simp [insertDesc]
  | cons y ys ih =>
    rcases List.pairwise_cons.mp h with ⟨hy, hys⟩
    simp only [insertDesc]
    split
    · rename_i hle
      refine List.pairwise_cons.mpr ⟨?_, h⟩
      intro b hb
      rcases List.mem_cons.mp hb with hb | hb
      · subst hb; exact hle
      · exact Nat.le_trans (hy b hb) hle
    · rename_i hgt
      refine List.pairwise_cons.mpr ⟨?_, ih hys⟩
      intro b hb
      rcases mem_insertDesc.mp hb with hb | hb
      · subst hb; exact Nat.le_of_lt (Nat.lt_of_not_le hgt)
      · exact hy b hb

theorem pairwise_sortDesc (l : List MemoRow) :
    List.Pairwise (fun a b => b.memo_number ≤ a.memo_number) (sortDesc l) := by
  induction l with
  | nil => simp [sortDesc]
  | cons x xs ih => exact pairwise_insertDesc ih

theorem dedupAux_spec {r : MemoRow} :
    ∀ {seen : List Nat} {l : List MemoRow}, r ∈ dedupAux seen l →
      r.memo_number ∉ seen ∧
      l.find? (fun x => x.memo_number == r.memo_number) = some r := by
  intro seen l
  induction l generalizing seen with
  | nil => simp [dedupAux]
  | cons x rest ih =>
    intro h
    simp only [dedupAux] at h
    split at h
    · rename_i hseen
      rcases ih h with ⟨hnot, hfind⟩
      refine ⟨hnot, ?_⟩
      have hne : (x.memo_number == r.memo_number) = false := by
        simp only [beq_eq_false_iff_ne]
        intro he
        exact hnot (he ▸ hseen)
      simp [List.find?_cons, hne, hfind]
    · rename_i hseen
      rcases List.mem_cons.mp h with hr | hr
      · subst hr
        exact ⟨hseen, by simp [List.find?_cons]⟩
      · rcases ih hr with ⟨hnot, hfind⟩
        have hne2 : r.memo_number ≠ x.memo_number := by
          intro he
          exact hnot (by simp [he])
        refine ⟨fun hc => hnot (List.mem_cons_of_mem _ hc), ?_⟩
        have hne : (x.memo_number == r.memo_number) = false := by
          simp only [beq_eq_false_iff_ne]
          exact fun he => hne2 he.symm
        simp [List.find?_cons, hne, hfind]

theorem dedupAux_pairwise :
    ∀ (seen : List Nat) (l : List MemoRow),
      List.Pairwise (fun a b => a.memo_number ≠ b.memo_number) (dedupAux seen l) := by
  intro seen l
  induction l generalizing seen with
  | nil => simp [dedupAux]
  | cons x rest ih =>
    simp only [dedupAux]
    split
    · exact ih seen
    · refine List.pairwise_cons.mpr ⟨?_, ih _⟩
      intro b hb
      have := (dedupAux_spec hb).1
      intro he
      exact this (by simp [he])

theorem dedupAux_complete (r : MemoRow) :
    ∀ (l : List MemoRow) (seen : List Nat), r ∈ l →
      r.memo_number ∈ seen ∨ ∃ q ∈ dedupAux seen l, q.memo_number = r.memo_number := by
  intro l
  induction l with
  | nil => intro seen h; simp at h
  | cons x rest ih =>
    intro seen h
    rcases List.mem_cons.mp h with hr | hr
    · simp only [dedupAux]
      split
      · rename_i hseen; exact Or.inl (by rw [hr]; exact hseen)
      · exact Or.inr ⟨x, List.mem_cons_self _ _, by rw [hr]⟩
    · simp only [dedupAux]
      split
      · exact ih seen hr
      · rcases ih (x.memo_number :: seen) hr with hs | ⟨q, hq, he⟩
        · rcases List.mem_cons.mp hs with hs | hs
          · exact Or.inr ⟨x, by simp, hs.symm⟩
          · exact Or.inl hs
        · exact Or.inr ⟨q, List.mem_cons_of_mem _ hq, he⟩

theorem enrichStep_memo_number {fetch : MemoRow → Except String String}
    {it : String} {r0 r : MemoRow} (h : enrichStep fetch it r0 = some r) :
    r.memo_number = r0.memo_number := by
  unfold enrichStep at h
  split at h
  · cases h; rfl
  · simp only at h
    split at h
    · split at h
      · cases h; rfl
      · cases h
    · cases h; rfl

theorem pickRows_subset {listing : List MemoRow} {mode : SelectionMode} :
    pickRows listing mode ⊆ listing := by
  cases mode with
  | watermark content => exact List.filter_subset' _
  | lookback cutoff => exact List.filter_subset' _

theorem le_maxNum {r : MemoRow} : ∀ {l : List MemoRow}, r ∈ l → r.memo_number ≤ maxNum l := by
  intro l
  induction l with
  | nil => simp
  | cons x rest ih =>
    intro h
    rcases List.mem_cons.mp h with hr | hr
    · subst hr; exact Nat.le_max_left _ _
    · exact Nat.le_trans (ih hr) (Nat.le_max_right _ _)

theorem maxNum_mem : ∀ {l : List MemoRow}, l ≠ [] → ∃ r ∈ l, maxNum l = r.memo_number := by
  intro l
  induction l with
  | nil => simp
  | cons x rest ih =>
    intro _
    cases rest with
    | nil => exact ⟨x, by simp, by simp [maxNum]⟩
    | cons y ys =>
      rcases ih (by simp) with ⟨q, hq, he⟩
      rcases Nat.le_total (maxNum (y :: ys)) x.memo_number with hle | hle
      · refine ⟨x, List.mem_cons_self _ _, ?_⟩
        show max x.memo_number (maxNum (y :: ys)) = x.memo_number
        exact Nat.max_eq_left hle
      · refine ⟨q, List.mem_cons_of_mem _ hq, ?_⟩
        show max x.memo_number (maxNum (y :: ys)) = q.memo_number
        rw [Nat.max_eq_right hle, he]

theorem mem_excludePastFilter {toggle : Bool} {today : PyDate} {rows : List MemoRow}
    {r : MemoRow} (h : r ∈ excludePastFilter toggle today rows) : r ∈ rows := by
  unfold excludePastFilter at h
  split at h
  · exact (List.mem_filter.mp h).1
  · exact h

/-! ## Claim C1 -/

/-- C1, counterexample: the title whose case-folded form is
"notice of reverse stock split — xyz" (empty subject) does NOT classify as
"reverse split" — the phrase "stock split" is a keyword of the taxonomy
entry "split", which is checked before any fallback, so the classifier
returns "split". -/
theorem c1_counterexample :
    classify_event "notice of reverse stock split — xyz" none = some "split" ∧
    (some "split" : Option String) ≠ some "reverse split" := by
  exact ⟨by decide, by decide⟩

/-- C1, amended: the title "notice of reverse stock split — xyz" classifies
as "split" (not "reverse split"); any text containing "tender offer" but no
keyword of an earlier taxonomy entry classifies as "tender"; and any text
containing no taxonomy keyword, not containing both "reverse" and "split",
not containing "stock split", and matching no numeric "N for M" ratio
pattern classifies as absent. -/
theorem c1_classifier :
    (classify_event "notice of reverse stock split — xyz" none = some "split") ∧
    (∀ title subject,
      strContains (lowerStr (title ++ " " ++ subject.getD "")) "tender offer" = true →
      (∀ k ∈ tenderEarlierKeys,
        strContains (lowerStr (title ++ " " ++ subject.getD "")) k = false) →
      classify_event title subject = some "tender") ∧
    (∀ title subject,
      (∀ k ∈ allTaxonomyKeys,
        strContains (lowerStr (title ++ " " ++ subject.getD "")) k = false) →
      (strContains (lowerStr (title ++ " " ++ subject.getD "")) "reverse" &&
        strContains (lowerStr (title ++ " " ++ subject.getD "")) "split") = false →
      strContains (lowerStr (title ++ " " ++ subject.getD "")) "stock split" = false →
      ratioSearch (lowerStr (title ++ " " ++ subject.getD "")) = false →
      classify_event title subject = none) := by
  refine ⟨by decide, ?_, ?_⟩
  · intro title subject hto hk
    have e1 := hk "reverse split" (by decide)
    have e2 := hk "stock split" (by decide)
    have e3 := hk "split " (by decide)
    have e4 := hk "name/symbol change" (by decide)
    have e5 := hk "symbol change" (by decide)
    have e6 := hk "name change" (by decide)
    have e7 := hk "merger" (by decide)
    have e8 := hk "combination" (by decide)
    have e9 := hk "acquisition" (by decide)
    simp [classify_event, firstKeyLabel, EVENT_KEYWORDS, e1, e2, e3, e4, e5, e6, e7, e8, e9, hto]
  · intro title subject hk hrs hss hr
    have e1 := hk "reverse split" (by decide)
    have e2 := hk "stock split" (by decide)
    have e3 := hk "split " (by decide)
    have e4 := hk "name/symbol change" (by decide)
    have e5 := hk "symbol change" (by decide)
    have e6 := hk "name change" (by decide)
    have e7 := hk "merger" (by decide)
    have e8 := hk "combination" (by decide)
    have e9 := hk "acquisition" (by decide)
    have e10 := hk "tender offer" (by decide)
    have e11 := hk "liquidation" (by decide)
    simp [classify_event, firstKeyLabel, EVENT_KEYWORDS, e1, e2, e3, e4, e5, e6, e7, e8, e9,
      e10, e11, hrs, hss, hr]

/-- C1, witness: the amended theorem applied at a concrete tender-offer
title. -/
theorem c1_witness : classify_event "abc tender offer" none = some "tender" :=
  c1_classifier.2.1 "abc tender offer" none (by decide) (by decide)

/-! ## Claim C2 -/

/-- C2, counterexample: on the document text
"Effective Date: Feb 30, 2024\nDate: 03/04/2025" the first cascade pattern
matches with a capture whose normalization fails (February 30 is not a
calendar date), a later cascade pattern matches with a capture that
normalizes, and yet the extracted effective date is absent: the cascade does
NOT fall through on normalization failure. -/
theorem c2_counterexample :
    effDateLineCapture "Effective Date: Feb 30, 2024\nDate: 03/04/2025" = some "Feb 30, 2024" ∧
    to_iso "Feb 30, 2024" = none ∧
    dateFieldCapture "Effective Date: Feb 30, 2024\nDate: 03/04/2025" = some "03/04/2025" ∧
    to_iso "03/04/2025" = some "2025-03-04" ∧
    (parse_pdf_fields "Effective Date: Feb 30, 2024\nDate: 03/04/2025").effective_date = none := by
  refine ⟨by decide, by decide, by decide, by decide, by decide⟩

/-- C2, amended: in the effective-date cascade the first matching pattern is
final — its capture is passed to the normalizer and the result (absence
included) is the extracted effective date; a later pattern is consulted only
when every earlier pattern fails to match, and the extracted date is absent
when no pattern matches at all. -/
theorem c2_cascade (text : String) :
    (∀ c, effDateLineCapture text = some c →
      (parse_pdf_fields text).effective_date = to_iso c) ∧
    (effDateLineCapture text = none →
      ∀ c, dateFieldCapture text = some c →
        (parse_pdf_fields text).effective_date = to_iso c) ∧
    (effDateLineCapture text = none → dateFieldCapture text = none →
      ∀ c, marketOpenCapture text = some c →
        (parse_pdf_fields text).effective_date = to_iso c) ∧
    (effDateLineCapture text = none → dateFieldCapture text = none →
      marketOpenCapture text = none →
      (parse_pdf_fields text).effective_date = none) := by
  refine ⟨?_, ?_, ?_, ?_⟩
  · intro c hc
    simp [parse_pdf_fields, hc]
  · intro h1 c hc
    simp [parse_pdf_fields, h1, hc]
  · intro h1 h2 c hc
    simp [parse_pdf_fields, h1, h2, hc]
  · intro h1 h2 h3
    simp [parse_pdf_fields, h1, h2, h3]

/-- C2, witness: the amended theorem applied at the text whose first pattern
captures an invalid date. -/
theorem c2_witness :
    (parse_pdf_fields "Effective Date: Feb 30, 2024\nDate: 03/04/2025").effective_date
      = to_iso "Feb 30, 2024" :=
  (c2_cascade "Effective Date: Feb 30, 2024\nDate: 03/04/2025").1 "Feb 30, 2024" (by decide)

/-! ## Claim C5 -/

/-- C5: the source line 291 spells the guard `args.exclude-past-effective`,
which Python evaluates as `(args.exclude) - past - effective`; the first
name it needs, attribute `exclude`, does not exist on the argparse namespace
(the flag's attribute is `exclude_past_effective`), so evaluating the guard
raises instead of reading the flag.  The claimed semantics holds of the
intended filter: with today = 2025-06-01, a record with effective date
2025-05-01 is dropped exactly when the toggle is set, a record with
effective date equal to today is kept, and a record with no effective date
is kept either way. -/
theorem c5_exclude_past :
    line291Failure = some "exclude" ∧
    excludePastFilter true ⟨2025, 6, 1⟩
      [⟨7, "t", "u", none, some "2025-05-01", none, none, none, none, none⟩] = [] ∧
    excludePastFilter false ⟨2025, 6, 1⟩
      [⟨7, "t", "u", none, some "2025-05-01", none, none, none, none, none⟩] =
      [⟨7, "t", "u", none, some "2025-05-01", none, none, none, none, none⟩] ∧
    excludePastFilter true ⟨2025, 6, 1⟩ [sampleRow 7 "t"] = [sampleRow 7 "t"] ∧
    excludePastFilter false ⟨2025, 6, 1⟩ [sampleRow 7 "t"] = [sampleRow 7 "t"] ∧
    excludePastFilter true ⟨2025, 6, 1⟩
      [⟨8, "t", "u", none, some "2025-06-01", none, none, none, none, none⟩] =
      [⟨8, "t", "u", none, some "2025-06-01", none, none, none, none, none⟩] := by
  refine ⟨by decide, by decide, by decide, by decide, by decide, by decide⟩

/-! ## Claim C6 -/

/-- C6: the listing parser's dedup-and-order stage produces a sequence
sorted by strictly descending memo number (hence with no two entries sharing
an identifier); every produced entry is the first row in scan order carrying
its identifier; and every scanned identifier is represented. -/
theorem c6_listing_dedup (rows : List MemoRow) :
    List.Pairwise (fun a b => b.memo_number < a.memo_number)
      (parse_search_listing_rows rows) ∧
    (∀ r ∈ parse_search_listing_rows rows,
      rows.find? (fun x => x.memo_number == r.memo_number) = some r) ∧
    (∀ r ∈ rows, ∃ q ∈ parse_search_listing_rows rows,
      q.memo_number = r.memo_number) := by
  have hperm := sortDesc_perm (dedupRows rows)
  refine ⟨?_, ?_, ?_⟩
  · have hle := pairwise_sortDesc (dedupRows rows)
    have hne : List.Pairwise (fun a b => a.memo_number ≠ b.memo_number)
        (sortDesc (dedupRows rows)) :=
      (List.Perm.pairwise_iff (fun h => h.symm) hperm).mpr (dedupAux_pairwise [] rows)
    exact (hle.and hne).imp (fun h => Nat.lt_of_le_of_ne h.1 (fun he => h.2 he.symm))
  · intro r hr
    exact (dedupAux_spec (mem_sortDesc.mp hr)).2
  · intro r hr
    rcases dedupAux_complete r rows [] hr with hs | ⟨q, hq, he⟩
    · simp at hs
    · exact ⟨q, mem_sortDesc.mpr hq, he⟩

/-- C6, witness: on a scan with a duplicated identifier, a produced entry is
the first occurrence in scan order. -/
theorem c6_witness :
    [sampleRow 3 "a", sampleRow 5 "b", sampleRow 3 "c"].find?
      (fun x => x.memo_number == (sampleRow 3 "a").memo_number) = some (sampleRow 3 "a") :=
  (c6_listing_dedup [sampleRow 3 "a", sampleRow 5 "b", sampleRow 3 "c"]).2.1
    (sampleRow 3 "a") (by decide)

/-! ## Claim C10 -/

/-- C10: a preceding text fragment counts as a date hint only if it begins,
at its first character, with a two-digit/two-digit/four-digit date; a
fragment failing that test (date later in the string, single-digit parts)
contributes nothing to the hints, and both hints are absent when no fragment
qualifies. -/
theorem c10_date_hints :
    (∀ texts_back : List String,
      (∀ t ∈ texts_back, startsWithDatePattern t = false) →
      listingDateHints texts_back = (none, none)) ∧
    (∀ (pre post : List String) (t : String), startsWithDatePattern t = false →
      listingDateHints (pre ++ t :: post) = listingDateHints (pre ++ post)) ∧
    startsWithDatePattern "posted 03/04/2025" = false ∧
    startsWithDatePattern "3/4/2025" = false ∧
    startsWithDatePattern "03/04/2025 — x" = true := by
  refine ⟨?_, ?_, by decide, by decide, by decide⟩
  · intro texts h
    have hnil : ((texts.filter (fun t => t ≠ "")).reverse).filter startsWithDatePattern = [] := by
      rw [List.filter_eq_nil_iff]
      intro a ha
      have hat : a ∈ texts := (List.mem_filter.mp (List.mem_reverse.mp ha)).1
      simp [h a hat]
    simp only [listingDateHints]
    rw [hnil]
  · intro pre post t ht
    by_cases he : t = ""
    · subst he
      simp [listingDateHints, List.filter_append]
    · simp [listingDateHints, List.filter_append, List.reverse_append, he, ht]

/-- C10, witness: a fragment list with no qualifying fragment yields absent
hints. -/
theorem c10_witness : listingDateHints ["abc"] = (none, none) :=
  c10_date_hints.1 ["abc"] (by decide)

/-! ## Pipeline helper lemmas -/

theorem runMain_results (listing : List MemoRow) (mode : SelectionMode) (inc : List String)
    (excl : Bool) (today : PyDate) (fetch : MemoRow → Except String String) (slk : Bool) :
    (runMain listing mode inc excl today fetch slk).results =
      if (pickRows listing mode).isEmpty then []
      else sortDesc (excludePastFilter excl today
        (enrichLoop fetch (include_textOf inc) (pickRows listing mode))) := by
  simp only [runMain]
  split <;> rfl

theorem enrichStep_keyword {fetch : MemoRow → Except String String} {it : String}
    {r0 r : MemoRow} (h : enrichStep fetch it r0 = some r) :
    (∃ e, fetch r0 = Except.error e ∧ r = { r0 with details := some ("parse_error: " ++ e) }) ∨
    (pySplitWs it).any
      (fun kw => strContains (lowerStr (r.title ++ " " ++ r.subject.getD "")) kw) = true ∨
    it = "" := by
  unfold enrichStep at h
  split at h
  · rename_i e hf
    cases h
    exact Or.inl ⟨e, hf, rfl⟩
  · rename_i text hf
    simp only at h
    split at h
    · split at h
      · rename_i hcond
        cases h
        exact Or.inr (Or.inl hcond)
      · cases h
    · rename_i hit
      exact Or.inr (Or.inr (not_not.mp hit))

/-! ## Claim C3 -/

/-- C3: in watermark mode, every record of the final output has a memo
number strictly greater than the watermark value read from the state-file
content at the start of the run (0 for an absent or unreadable file). -/
theorem c3_watermark_bound (listing : List MemoRow) (content : Option String)
    (inc : List String) (excl : Bool) (today : PyDate)
    (fetch : MemoRow → Except String String) (slk : Bool) (r : MemoRow)
    (h : r ∈ (runMain listing (SelectionMode.watermark content) inc excl today
      fetch slk).results) :
    readWatermark content < (r.memo_number : Int) := by
  rw [runMain_results] at h
  split at h
  · simp at h
  · have h2 := mem_excludePastFilter (mem_sortDesc.mp h)
    rcases List.mem_filterMap.mp h2 with ⟨r0, hr0, hstep⟩
    have hnum := enrichStep_memo_number hstep
    have hp := (List.mem_filter.mp hr0).2
    rw [hnum]
    exact of_decide_eq_true hp

/-- C3, witness: the bound applied at a concrete run (watermark 101, one
candidate numbered 102, failing fetch). -/
theorem c3_witness :
    readWatermark (some "101") <
      (({ sampleRow 102 "t" with details := some "parse_error: net" } : MemoRow).memo_number : Int) :=
  c3_watermark_bound [sampleRow 102 "t"] (some "101") [] false ⟨2025, 6, 1⟩
    (fun _ => Except.error "net") false
    { sampleRow 102 "t" with details := some "parse_error: net" } (by decide)

/-! ## Claim C4 -/

/-- C4, counterexample: a run whose listing parse is non-empty but whose
selection picks no candidate (watermark 10, sole listing entry numbered 5)
returns early and does not rewrite the state file at all, contradicting the
claim that every run with a non-empty listing rewrites it. -/
theorem c4_counterexample :
    ([sampleRow 5 "t"] : List MemoRow) ≠ [] ∧
    maxNum [sampleRow 5 "t"] = 5 ∧
    (runMain [sampleRow 5 "t"] (SelectionMode.watermark (some "10"))
      defaultIncludeArgs false ⟨2025, 6, 1⟩ (fun _ => Except.error "e") false).state_write
      = none := by
  refine ⟨by decide, by decide, by decide⟩

/-- C4, amended: in every run whose selection stage picks at least one
candidate, the state file is rewritten with the maximum identifier observed
anywhere in the full parsed listing, regardless of what survives the
enrichment filters; that value bounds every listing identifier and is
attained by one of them.  Runs whose selection picks nothing return early
and leave the state file untouched. -/
theorem c4_state_write (listing : List MemoRow) (mode : SelectionMode) (inc : List String)
    (excl : Bool) (today : PyDate) (fetch : MemoRow → Except String String) (slk : Bool)
    (h : pickRows listing mode ≠ []) :
    (runMain listing mode inc excl today fetch slk).state_write = some (maxNum listing) ∧
    (∀ r ∈ listing, r.memo_number ≤ maxNum listing) ∧
    (∃ r ∈ listing, maxNum listing = r.memo_number) := by
  have hlist : listing ≠ [] := by
    intro he
    subst he
    exact h (by cases mode <;> rfl)
  refine ⟨?_, fun r hr => le_maxNum hr, maxNum_mem hlist⟩
  have hie : (pickRows listing mode).isEmpty = false := List.isEmpty_eq_false.mpr h
  simp [runMain, hie]

/-- C4, witness: the amended statement at a concrete run picking one
candidate. -/
theorem c4_witness :
    (runMain [sampleRow 102 "t"] (SelectionMode.watermark (some "0")) [] false ⟨2025, 6, 1⟩
      (fun _ => Except.error "e") false).state_write = some (maxNum [sampleRow 102 "t"]) :=
  (c4_state_write [sampleRow 102 "t"] (SelectionMode.watermark (some "0")) [] false
    ⟨2025, 6, 1⟩ (fun _ => Except.error "e") false (by decide)).1

/-! ## Claim C7 -/

/-- C7, counterexample: with the default non-empty include-keyword set, a
candidate whose document fetch fails is emitted into the final output even
though its title+subject contains none of the keywords — the error path of
the enrichment loop bypasses the include filter, so the filter does not drop
every keyword-free record. -/
theorem c7_counterexample :
    (runMain [sampleRow 7 "zzz"] (SelectionMode.watermark (some "0"))
      defaultIncludeArgs false ⟨2025, 6, 1⟩ (fun _ => Except.error "boom") false).results
      = [{ sampleRow 7 "zzz" with details := some "parse_error: boom" }] ∧
    include_textOf defaultIncludeArgs ≠ "" ∧
    (pySplitWs (include_textOf defaultIncludeArgs)).all
      (fun kw => !strContains (lowerStr ("zzz" ++ " " ++ "")) kw) = true := by
  refine ⟨by decide, by decide, by decide⟩

/-- C7, amended: with a non-empty configured keyword set, every record of
the final output either contains a configured keyword in its case-folded
title+subject, or is an error record: a selected candidate whose document
fetch failed, emitted with an error note and exempt from the include
filter. -/
theorem c7_include_filter (listing : List MemoRow) (mode : SelectionMode)
    (inc : List String) (excl : Bool) (today : PyDate)
    (fetch : MemoRow → Except String String) (slk : Bool) (r : MemoRow)
    (hinc : include_textOf inc ≠ "")
    (h : r ∈ (runMain listing mode inc excl today fetch slk).results) :
    (pySplitWs (include_textOf inc)).any
      (fun kw => strContains (lowerStr (r.title ++ " " ++ r.subject.getD "")) kw) = true ∨
    ∃ r0 e, r0 ∈ listing ∧ fetch r0 = Except.error e ∧
      r = { r0 with details := some ("parse_error: " ++ e) } := by
  rw [runMain_results] at h
  split at h
  · simp at h
  · have h2 := mem_excludePastFilter (mem_sortDesc.mp h)
    rcases List.mem_filterMap.mp h2 with ⟨r0, hr0, hstep⟩
    rcases enrichStep_keyword hstep with ⟨e, hf, he⟩ | hc | hbad
    · exact Or.inr ⟨r0, e, pickRows_subset hr0, hf, he⟩
    · exact Or.inl hc
    · exact absurd hbad hinc

/-- C7, witness: the amended statement at a concrete run whose sole
candidate fetch fails. -/
theorem c7_witness :
    (pySplitWs (include_textOf defaultIncludeArgs)).any
      (fun kw => strContains
        (lowerStr (({ sampleRow 7 "zzz" with details := some "parse_error: boom" } : MemoRow).title
          ++ " " ++
          ({ sampleRow 7 "zzz" with details := some "parse_error: boom" } : MemoRow).subject.getD ""))
        kw) = true ∨
    ∃ r0 e, r0 ∈ [sampleRow 7 "zzz"] ∧
      (Except.error "boom" : Except String String) = Except.error e ∧
      ({ sampleRow 7 "zzz" with details := some "parse_error: boom" } : MemoRow)
        = { r0 with details := some ("parse_error: " ++ e) } :=
  c7_include_filter [sampleRow 7 "zzz"] (SelectionMode.watermark (some "0"))
    defaultIncludeArgs false ⟨2025, 6, 1⟩ (fun _ => Except.error "boom") false
    { sampleRow 7 "zzz" with details := some "parse_error: boom" }
    (by decide) (by decide)

/-! ## Claim C8 -/

/-- C8, counterexample: an errored candidate is emitted into the enriched
result list, but when the past-effective exclusion is on and the candidate
carries a past effective-date hint from the listing, it IS dropped from the
final result set — the claim's "not dropped from the output" does not hold
of the final output. -/
theorem c8_counterexample :
    enrichLoop (fun _ => Except.error "boom") (include_textOf []) [hintRow] =
      [{ hintRow with details := some "parse_error: boom" }] ∧
    (runMain [hintRow] (SelectionMode.watermark (some "0")) [] true ⟨2025, 6, 1⟩
      (fun _ => Except.error "boom") false).results = [] := by
  refine ⟨by decide, by decide⟩

/-- C8, amended: every selected candidate whose document fetch fails is
emitted into the enriched result list as a record keeping its identifier,
title and document reference, with its details field carrying the error
note, and it is never dropped by the include-keyword filter; it reaches the
final result set whenever the past-effective exclusion is off or its
effective-date hint does not place it strictly before today. -/
theorem c8_error_record (listing : List MemoRow) (mode : SelectionMode) (inc : List String)
    (excl : Bool) (today : PyDate) (fetch : MemoRow → Except String String) (slk : Bool)
    (r0 : MemoRow) (e : String) (hmem : r0 ∈ pickRows listing mode)
    (hf : fetch r0 = Except.error e) :
    { r0 with details := some ("parse_error: " ++ e) } ∈
      enrichLoop fetch (include_textOf inc) (pickRows listing mode) ∧
    ({ r0 with details := some ("parse_error: " ++ e) } : MemoRow).memo_number
      = r0.memo_number ∧
    ({ r0 with details := some ("parse_error: " ++ e) } : MemoRow).title = r0.title ∧
    ({ r0 with details := some ("parse_error: " ++ e) } : MemoRow).url = r0.url ∧
    ((excl = false ∨
        keepByEffDate today { r0 with details := some ("parse_error: " ++ e) } = true) →
      { r0 with details := some ("parse_error: " ++ e) } ∈
        (runMain listing mode inc excl today fetch slk).results) := by
  have hstep : enrichStep fetch (include_textOf inc) r0 =
      some { r0 with details := some ("parse_error: " ++ e) } := by
    unfold enrichStep
    rw [hf]
  have hloop : { r0 with details := some ("parse_error: " ++ e) } ∈
      enrichLoop fetch (include_textOf inc) (pickRows listing mode) :=
    List.mem_filterMap.mpr ⟨r0, hmem, hstep⟩
  refine ⟨hloop, rfl, rfl, rfl, ?_⟩
  intro hk
  rw [runMain_results]
  have hne : (pickRows listing mode).isEmpty = false :=
    List.isEmpty_eq_false.mpr (fun hnil => by rw [hnil] at hmem; cases hmem)
  rw [if_neg (by simp [hne])]
  rw [mem_sortDesc]
  cases excl with
  | false => exact hloop
  | true =>
    rcases hk with hexcl | hkeep
    · cases hexcl
    · exact List.mem_filter.mpr ⟨hloop, hkeep⟩

/-- C8, witness: the amended statement at a concrete failing fetch. -/
theorem c8_witness :
    { sampleRow 9 "t" with details := some ("parse_error: " ++ "boom") } ∈
      enrichLoop (fun _ => Except.error "boom") (include_textOf defaultIncludeArgs)
        (pickRows [sampleRow 9 "t"] (SelectionMode.watermark (some "0"))) :=
  (c8_error_record [sampleRow 9 "t"] (SelectionMode.watermark (some "0"))
    defaultIncludeArgs false ⟨2025, 6, 1⟩ (fun _ => Except.error "boom") false
    (sampleRow 9 "t") "boom" (by decide) rfl).1

/-! ## Claim C9 -/

/-- C9: a run whose selection stage picks no candidate terminates early with
no external effect: no spreadsheet, no timestamped CSV, no latest CSV, no
state-file write and no notification, and an empty result set. -/
theorem c9_no_effects (listing : List MemoRow) (mode : SelectionMode) (inc : List String)
    (excl : Bool) (today : PyDate) (fetch : MemoRow → Except String String) (slk : Bool)
    (h : pickRows listing mode = []) :
    runMain listing mode inc excl today fetch slk =
      { wrote_xlsx := false, wrote_csv := false, wrote_latest := false,
        state_write := none, notified := false, results := [] } := by
  simp [runMain, h]

/-- C9, witness: the empty-selection run at a concrete configuration with
notification configured. -/
theorem c9_witness :
    runMain [] (SelectionMode.watermark none) defaultIncludeArgs false ⟨2025, 6, 1⟩
      (fun _ => Except.error "e") true =
      { wrote_xlsx := false, wrote_csv := false, wrote_latest := false,
        state_write := none, notified := false, results := [] } :=
  c9_no_effects [] (SelectionMode.watermark none) defaultIncludeArgs false ⟨2025, 6, 1⟩
    (fun _ => Except.error "e") true rfl
